import Mathlib

/-!
# Shallow embedding of the ranvier pipeline core

This file embeds, in Lean, the parts of the ranvier repository that the
verified properties talk about:

* `Outcome` and its algebra            (src/core/src/outcome.rs)
* `Timeline` events and sorting        (src/core/src/timeline.rs)
* the `Bus` timeline slot              (src/core/src/bus.rs)
* the `Schematic` graph                (src/core/src/schematic.rs)
* the `Axon` builder, composed executor, execute, and the timeline
  sampling/export subsystem            (src/runtime/src/axon.rs)

Modelling conventions:
* Rust `u64` counters are `Nat` with increments reduced mod `2 ^ 64`.
* `uuid::Uuid` values are modelled by their 128-bit numeric value (`Nat`);
  calls to `uuid::Uuid::new_v4()` inside the builder are determinized by a
  generator counter threaded through the builder (field `gen`), rendered as
  the string `"uuid-<n>"`.  None of the proved properties depends on the
  actual uuid values.
* `f64` sample rates are modelled as exact rationals (`ℚ`); the comparisons
  performed by the code are order comparisons that rationals model exactly.
* Wall-clock reads (`now_ms()` / `Instant::now()`) are modelled by a counter
  `clock` in a `World` state that each read returns and advances; durations
  are differences of two reads.
* The process environment, the filesystem and the global sampling-stats cell
  are bundled into the explicit `Env` and `World` states.  A file write can
  fail (the `writeFails` oracle), a stored file can be unreadable or fail to
  parse as a `Timeline` (the `FSEntry` alternatives).
* The `Bus` is a map from type identity to values; the only slots the
  embedded code touches are the `Timeline` slot and the `id` field, so the
  embedding carries exactly those.  The remaining slots are invisible to all
  functions modelled here.
* Rust string helpers used by the code (`str::trim().is_empty()`,
  `to_ascii_lowercase`, path stem/extension splitting) are re-implemented on
  the character list of the string so that they compute by reduction.
-/

set_option maxHeartbeats 1000000

namespace Ranvier

/-! ## ASCII string helpers (models of the `str` methods the code uses) -/

/-- Model of Rust whitespace as used by `str::trim` (ASCII subset). -/
def isWhitespaceChar (c : Char) : Bool :=
  c = ' ' || c = '\t' || c = '\n' || c = '\r'

/-- Model of `v.trim().is_empty()`: every character is whitespace. -/
def trimIsEmpty (s : String) : Bool :=
  s.data.all isWhitespaceChar

/-- Lower-case one ASCII character, as `u8::to_ascii_lowercase` does. -/
def lowerChar (c : Char) : Char :=
  if 'A' ≤ c ∧ c ≤ 'Z' then Char.ofNat (c.toNat + 32) else c

/-- Model of `str::to_ascii_lowercase`. -/
def asciiLower (s : String) : String :=
  ⟨s.data.map lowerChar⟩

/-- Split a character list on a separator character (model for path handling). -/
def splitOnChar (sep : Char) : List Char → List (List Char)
  | [] => [[]]
  | c :: rest =>
    match splitOnChar sep rest with
    | [] => if c = sep then [[], []] else [[c]]
    | g :: gs => if c = sep then [] :: g :: gs else (c :: g) :: gs

/-- Model of `Path::file_name`: the component after the last `/`. -/
def pathFileName (p : String) : String :=
  ⟨((splitOnChar '/' p.data).getLast?).getD p.data⟩

/-- Model of `Path::parent` (as a string; `""` for a bare file name). -/
def pathParent (p : String) : String :=
  let parts := splitOnChar '/' p.data
  if parts.length ≤ 1 then ""
  else ⟨(parts.dropLast.map (fun g => g ++ ['/'])).flatten.dropLast⟩

/-- Split a file name into (`file_stem`, `extension`), following
`Path::file_stem` / `Path::extension`: the split happens at the last dot,
except that a name whose only dot is a leading one has no extension. -/
def splitStemExt (name : List Char) : List Char × Option (List Char) :=
  let rname := name.reverse
  if rname.contains '.' then
    let ext := (rname.takeWhile (fun c => ¬ c = '.')).reverse
    let stem := ((rname.dropWhile (fun c => ¬ c = '.')).drop 1).reverse
    if stem.isEmpty then (name, none) else (stem, some ext)
  else (name, none)

/-! ## Outcome (src/core/src/outcome.rs) -/

/-- Model of `serde_json::Value`, the opaque payload type of the non-`Next`
`Outcome` variants.  Payloads are carried through untouched by everything
embedded here, so a representative value grammar suffices. -/
inductive JsonValue where
  | null
  | bool (b : Bool)
  | num (n : Int)
  | str (s : String)
  deriving Repr, DecidableEq

abbrev BranchId := String

/-- `NodeId` is a `Uuid` in the source; modelled by its numeric value. -/
abbrev NodeUuid := Nat

/-- `Outcome<T, E>` from outcome.rs. -/
inductive Outcome (T E : Type) where
  | Next (t : T)
  | Branch (id : BranchId) (payload : Option JsonValue)
  | Jump (id : NodeUuid) (payload : Option JsonValue)
  | Emit (event : String) (payload : Option JsonValue)
  | Fault (e : E)
  deriving Repr

/-- `Outcome::map`: transform only the `Next` payload, pass every other
variant through with identifier and payload untouched. -/
def Outcome.map {T U E : Type} (op : T → U) : Outcome T E → Outcome U E
  | .Next t => .Next (op t)
  | .Branch id payload => .Branch id payload
  | .Jump id payload => .Jump id payload
  | .Emit evt payload => .Emit evt payload
  | .Fault e => .Fault e

/-- `Outcome::map_err`. -/
def Outcome.map_err {T E F : Type} (op : E → F) : Outcome T E → Outcome T F
  | .Next t => .Next t
  | .Branch id payload => .Branch id payload
  | .Jump id payload => .Jump id payload
  | .Emit evt payload => .Emit evt payload
  | .Fault e => .Fault (op e)

/-- `Outcome::is_next`. -/
def Outcome.is_next {T E : Type} : Outcome T E → Bool
  | .Next _ => true
  | _ => false

/-- `Outcome::is_fault`. -/
def Outcome.is_fault {T E : Type} : Outcome T E → Bool
  | .Fault _ => true
  | _ => false

/-- `Outcome::is_branch`. -/
def Outcome.is_branch {T E : Type} : Outcome T E → Bool
  | .Branch _ _ => true
  | _ => false

/-- `Outcome::is_jump`. -/
def Outcome.is_jump {T E : Type} : Outcome T E → Bool
  | .Jump _ _ => true
  | _ => false

/-- `Outcome::is_emit`. -/
def Outcome.is_emit {T E : Type} : Outcome T E → Bool
  | .Emit _ _ => true
  | _ => false

/-- `Outcome::into_result`.  The `E: From<anyhow::Error>` bound is modelled
by an explicit conversion from the anyhow message to `E`. -/
def Outcome.into_result {T E : Type} (fromAnyhow : String → E) :
    Outcome T E → Except E T
  | .Next t => .ok t
  | .Fault e => .error e
  | .Branch _ _ => .error (fromAnyhow "Early termination: Branch")
  | .Jump _ _ => .error (fromAnyhow "Early termination: Jump")
  | .Emit _ _ => .error (fromAnyhow "Early termination: Emit")

/-! ## Timeline (src/core/src/timeline.rs) -/

/-- `TimelineEvent`. -/
inductive TimelineEvent where
  | NodeEnter (node_id : String) (node_label : String) (timestamp : Nat)
  | NodeExit (node_id : String) (outcome_type : String)
      (duration_ms : Nat) (timestamp : Nat)
  | Branchtaken (branch_id : String) (timestamp : Nat)
  deriving Repr, DecidableEq

/-- The sort key of `Timeline::sort` (`sort_by_key` on the timestamp). -/
def TimelineEvent.timestamp : TimelineEvent → Nat
  | .NodeEnter _ _ ts => ts
  | .NodeExit _ _ _ ts => ts
  | .Branchtaken _ ts => ts

/-- `Timeline`. -/
structure Timeline where
  events : List TimelineEvent := []
  deriving Repr, DecidableEq

/-- `Timeline::new` (same as `Default`). -/
def Timeline.new : Timeline := {}

/-- `Timeline::push` (`Vec::push` appends at the end). -/
def Timeline.push (t : Timeline) (e : TimelineEvent) : Timeline :=
  ⟨t.events ++ [e]⟩

/-- Stable insertion by timestamp: the inserted element goes in front of the
first element with an equal-or-larger key.  Used to model the stable
`sort_by_key` of timeline.rs. -/
def insertByTimestamp (x : TimelineEvent) :
    List TimelineEvent → List TimelineEvent
  | [] => [x]
  | y :: ys =>
    if x.timestamp ≤ y.timestamp then x :: y :: ys
    else y :: insertByTimestamp x ys

/-- Stable sort of events by timestamp, modelling
`events.sort_by_key(|e| timestamp)` (Rust's `sort_by_key` is stable, as is
this insertion sort). -/
def sortEvents : List TimelineEvent → List TimelineEvent
  | [] => []
  | x :: xs => insertByTimestamp x (sortEvents xs)

/-- `Timeline::sort`. -/
def Timeline.sort (t : Timeline) : Timeline :=
  ⟨sortEvents t.events⟩

/-- Boolean adjacent-pairs sortedness check for event lists. -/
def isSortedByTs : List TimelineEvent → Bool
  | [] => true
  | [_] => true
  | x :: y :: rest =>
    (x.timestamp ≤ y.timestamp : Bool) && isSortedByTs (y :: rest)

/-! ## Bus (src/core/src/bus.rs), restricted to the slots the axon touches -/

/-- The `Bus` projected to what src/runtime/src/axon.rs reads and writes:
its `id : Uuid` (modelled numerically) and its `Timeline` type slot.
`insert`/`read`/`read_mut`/`has`/`remove` at type `Timeline` become the
evident operations on the `timeline` option. -/
structure Bus where
  id : Nat
  timeline : Option Timeline := none
  deriving Repr, DecidableEq

/-- `if let Some(timeline) = bus.read_mut::<Timeline>() { timeline.push(ev) }`. -/
def timelinePush (bus : Bus) (ev : TimelineEvent) : Bus :=
  match bus.timeline with
  | some t => { bus with timeline := some (t.push ev) }
  | none => bus

/-! ## SamplingStats and the mutable world -/

/-- Modulus of the Rust `u64` counters (the numeral is `2 ^ 64`). -/
def U64LIM : Nat := 18446744073709551616

/-- A `u64` increment (`+= 1` with wrap-around). -/
def u64succ (n : Nat) : Nat := (n + 1) % U64LIM

/-- `SamplingStats` (axon.rs). -/
structure SamplingStats where
  total_decisions : Nat := 0
  exported : Nat := 0
  skipped : Nat := 0
  sampled_exports : Nat := 0
  forced_exports : Nat := 0
  last_mode : String := ""
  last_policy : String := ""
  last_updated_ms : Nat := 0
  deriving Repr, DecidableEq

/-- Content of a file as far as the export subsystem can observe it. -/
inductive FSEntry where
  /-- JSON that parses back into a `Timeline`. -/
  | timelineFile (t : Timeline)
  /-- The sampling-stats snapshot JSON (does not parse as a `Timeline`). -/
  | statsFile (s : SamplingStats)
  /-- Readable content that fails to parse as a `Timeline`. -/
  | unparseable (raw : String)
  /-- A file that exists but whose read fails. -/
  | unreadable
  deriving Repr, DecidableEq

/-- One stored file: path, content, and modification time. -/
structure FileRec where
  path : String
  entry : FSEntry
  mtime : Nat
  deriving Repr, DecidableEq

/-- The mutable world: filesystem, write-failure oracle, clock, and the
process-wide sampling-stats cell (lazily initialized to `default` in the
source; modelled as always present). -/
structure World where
  files : List FileRec := []
  writeFails : String → Bool := fun _ => false
  clock : Nat := 0
  stats : SamplingStats := {}

/-- `now_ms()`: read the clock; the model advances it so that consecutive
reads are distinct. -/
def World.nowMs (w : World) : Nat × World :=
  (w.clock, { w with clock := w.clock + 1 })

/-- Path lookup in the file list. -/
def lookupFile : List FileRec → String → Option FSEntry
  | [], _ => none
  | f :: rest, p => if f.path = p then some f.entry else lookupFile rest p

/-- Path update in the file list (replace in place, or append when new). -/
def setFileRecs : List FileRec → String → FSEntry → Nat → List FileRec
  | [], p, e, c => [⟨p, e, c⟩]
  | f :: rest, p, e, c =>
    if f.path = p then ⟨p, e, c⟩ :: rest else f :: setFileRecs rest p e c

/-- Look up a file (`Path::exists` / reading). -/
def World.getFile (w : World) (p : String) : Option FSEntry :=
  lookupFile w.files p

/-- `fs::write` on success: replace or create the file, stamping the
current clock as its modification time. -/
def World.setFile (w : World) (p : String) (e : FSEntry) : World :=
  { w with files := setFileRecs w.files p e w.clock }

/-! ## Environment (the RANVIER_* configuration, read per call) -/

/-- The environment variables the export subsystem reads.  Each field is the
raw string (or parsed value) when the variable is set and parses; `none`
models both an unset variable and a failed parse, matching the
`.ok().and_then(parse)` chains in the source. -/
structure Env where
  /-- RANVIER_TIMELINE_OUTPUT (raw string). -/
  timelineOutput : Option String := none
  /-- RANVIER_TIMELINE_MODE (raw string). -/
  timelineMode : Option String := none
  /-- RANVIER_TIMELINE_SAMPLE_RATE after `parse::<f64>()`, as a rational. -/
  sampleRate : Option ℚ := none
  /-- RANVIER_TIMELINE_ADAPTIVE (raw string). -/
  adaptive : Option String := none
  /-- RANVIER_TIMELINE_MAX_EVENTS after `parse::<usize>()`. -/
  maxEvents : Option Nat := none
  /-- RANVIER_TIMELINE_ROTATE_KEEP after `parse::<usize>()`. -/
  rotateKeep : Option Nat := none
  /-- RANVIER_TIMELINE_STATS_OUTPUT (raw string). -/
  statsOutput : Option String := none

/-- `has_timeline_output_path`. -/
def hasTimelineOutputPath (env : Env) : Bool :=
  match env.timelineOutput with
  | some v => ¬ trimIsEmpty v
  | none => false

/-- `timeline_sample_rate`: parse, clamp to `[0, 1]`, default `1.0`. -/
def timelineSampleRate (env : Env) : ℚ :=
  match env.sampleRate with
  | some v => if v < 0 then 0 else if v > 1 then 1 else v
  | none => 1

/-- `sampled_by_bus_id`. -/
def sampledByBusId (busId : Nat) (rate : ℚ) : Bool :=
  if rate ≤ 0 then false
  else if 1 ≤ rate then true
  else decide (((busId % 10000 : Nat) : ℚ) / 10000 < rate)

/-- `timeline_adaptive_policy`: the variable lower-cased, default
`"fault_branch"`. -/
def timelineAdaptivePolicy (env : Env) : String :=
  asciiLower ((env.adaptive).getD "fault_branch")

/-- `should_force_export`. -/
def shouldForceExport {T E : Type} (outcome : Outcome T E) (policy : String) :
    Bool :=
  if policy = "off" then false
  else if policy = "fault_only" then outcome.is_fault
  else if policy = "fault_branch_emit" then
    outcome.is_fault || outcome.is_branch || outcome.is_emit
  else outcome.is_fault || outcome.is_branch

/-- `timeline_stats_output_path`. -/
def timelineStatsOutputPath (env : Env) : Option String :=
  (env.statsOutput).filter (fun v => ¬ trimIsEmpty v)

/-- `max_events_limit`. -/
def maxEventsLimit (env : Env) : Option Nat :=
  (env.maxEvents).filter (fun v => 0 < v)

/-- `rotate_keep_limit`. -/
def rotateKeepLimit (env : Env) : Option Nat :=
  (env.rotateKeep).filter (fun v => 0 < v)

/-- `record_sampling_stats`: update the counters under the lock, then
optionally serialize the snapshot to the stats file (a failed write only
warns). -/
def recordSamplingStats (env : Env) (w : World)
    (exported sampled forced : Bool) (mode policy : String) : World :=
  let s0 := w.stats
  let s1 := { s0 with total_decisions := u64succ s0.total_decisions }
  let s2 :=
    if exported then { s1 with exported := u64succ s1.exported }
    else { s1 with skipped := u64succ s1.skipped }
  let s3 :=
    if sampled && exported then
      { s2 with sampled_exports := u64succ s2.sampled_exports }
    else s2
  let s4 :=
    if forced && exported then
      { s3 with forced_exports := u64succ s3.forced_exports }
    else s3
  let (ts, w1) := w.nowMs
  let s5 := { s4 with last_mode := mode, last_policy := policy,
                      last_updated_ms := ts }
  let w2 := { w1 with stats := s5 }
  match timelineStatsOutputPath env with
  | none => w2
  | some path =>
    if w2.writeFails path then w2 else w2.setFile path (.statsFile s5)

/-! ## Timeline persistence (write_timeline_with_policy and friends) -/

/-- `truncate_timeline_events`: keep the most recent `max_events` events by
dropping from the front (`split_off(len - max_events)`). -/
def truncateTimelineEvents (t : Timeline) (max_events : Nat) : Timeline :=
  let len := t.events.length
  if len > max_events then ⟨t.events.drop (len - max_events)⟩ else t

/-- Apply the optional `max_events_limit` truncation. -/
def truncOpt (env : Env) (t : Timeline) : Timeline :=
  match maxEventsLimit env with
  | some m => truncateTimelineEvents t m
  | none => t

/-- `write_timeline_json` (directory creation has no observable effect in
the model; a failing write leaves the file map unchanged). -/
def writeTimelineJson (w : World) (path : String) (t : Timeline) :
    World × Option String :=
  if w.writeFails path then (w, some "write error")
  else (w.setFile path (.timelineFile t), none)

/-- `rotated_path`. -/
def rotatedPath (path : String) (suffix : Nat) : String :=
  let parent := pathParent path
  let name := pathFileName path
  let (stemRaw, extOpt) := splitStemExt name.data
  let stem : String := if stemRaw.isEmpty then "timeline" else ⟨stemRaw⟩
  let ext : String := match extOpt with
    | some e => ⟨e⟩
    | none => "json"
  let fname := stem ++ "_" ++ toString suffix ++ "." ++ ext
  if parent = "" then fname else parent ++ "/" ++ fname

/-- Stable insertion for descending modification-time order. -/
def insertMtimeDesc (x : FileRec) : List FileRec → List FileRec
  | [] => [x]
  | y :: ys =>
    if y.mtime ≤ x.mtime then x :: y :: ys else y :: insertMtimeDesc x ys

/-- Stable sort, most recently modified first (`sort_by(|a, b| b.cmp(a))`). -/
def sortByMtimeDesc : List FileRec → List FileRec
  | [] => []
  | x :: xs => insertMtimeDesc x (sortByMtimeDesc xs)

/-- `cleanup_rotated_files`: list the sibling files matching
`<stem>_*.<ext>`, keep the `keep` most recently modified, delete the rest
(deletion errors are ignored; the directory read always succeeds in the
model). -/
def cleanupRotatedFiles (w : World) (basePath : String) (keep : Nat) :
    World × Option String :=
  let parent := pathParent basePath
  let name := pathFileName basePath
  let (stemRaw, extOpt) := splitStemExt name.data
  let stem : String := if stemRaw.isEmpty then "timeline" else ⟨stemRaw⟩
  let ext : String := match extOpt with
    | some e => ⟨e⟩
    | none => "json"
  let pfx := stem ++ "_"
  let sfx := "." ++ ext
  let matching := w.files.filter (fun f =>
    pathParent f.path = parent &&
    (pfx.data.isPrefixOf (pathFileName f.path).data) &&
    (sfx.data.reverse.isPrefixOf (pathFileName f.path).data.reverse))
  let victims := ((sortByMtimeDesc matching).drop keep).map (fun f => f.path)
  ({ w with files := w.files.filter (fun f => ¬ victims.contains f.path) },
   none)

/-- `write_timeline_with_policy`. -/
def writeTimelineWithPolicy (env : Env) (w : World)
    (path : String) (mode : String) (timeline : Timeline) :
    World × Option String :=
  if mode = "append" then
    match w.getFile path with
    | some entry =>
      match entry with
      | .unreadable => (w, some "read error")
      | .timelineFile existing =>
        let merged : Timeline := ⟨existing.events ++ timeline.events⟩
        let sorted : Timeline := merged.sort
        writeTimelineJson w path (truncOpt env sorted)
      | _ =>
        writeTimelineJson w path (truncOpt env timeline)
    | none =>
      writeTimelineJson w path (truncOpt env timeline)
  else if mode = "rotate" then
    let (ts, w1) := w.nowMs
    let rp := rotatedPath path ts
    match writeTimelineJson w1 rp timeline with
    | (w2, some err) => (w2, some err)
    | (w2, none) =>
      match rotateKeepLimit env with
      | some keep => cleanupRotatedFiles w2 path keep
      | none => (w2, none)
  else writeTimelineJson w path timeline

/-! ## Schematic (src/core/src/schematic.rs, fields as constructed by
src/runtime/src/axon.rs) -/

/-- `TypeInfo` (metadata.rs). -/
structure TypeInfo where
  name : String
  deriving Repr, DecidableEq

/-- `StepMetadata` (metadata.rs); always `Default::default()` here. -/
structure StepMetadata where
  id : Nat := 0
  label : String := ""
  description : Option String := none
  inputs : List TypeInfo := []
  outputs : List TypeInfo := []
  deriving Repr, DecidableEq

/-- `NodeKind`.  The `Subgraph` payload (a nested `Schematic`) is elided:
no operation embedded here constructs or inspects it. -/
inductive NodeKind where
  | Ingress
  | Atom
  | Synapse
  | Egress
  | Subgraph
  deriving Repr, DecidableEq

/-- `Node`, with the fields the axon builder populates. -/
structure Node where
  id : String
  kind : NodeKind
  label : String
  description : Option String := none
  input_type : String
  output_type : String
  resource_type : String
  metadata : StepMetadata := {}
  source_location : Option String := none
  deriving Repr, DecidableEq

/-- `EdgeType`. -/
inductive EdgeType where
  | Linear
  | Branch (id : String)
  | Jump
  | Fault
  deriving Repr, DecidableEq

/-- `Edge` (`from` and `to` are Lean keywords, hence `from_`/`to_`). -/
structure Edge where
  from_ : String
  to_ : String
  kind : EdgeType
  label : Option String := none
  deriving Repr, DecidableEq

/-- `Schematic`.  `generated_at` is a wall-clock stamp, kept abstractly. -/
structure Schematic where
  schema_version : String := "1.0"
  id : String
  name : String
  description : Option String := none
  generated_at : Option Nat := some 0
  nodes : List Node := []
  edges : List Edge := []
  deriving Repr, DecidableEq

/-- The uuid strings drawn from the determinized generator. -/
def mkUuid (n : Nat) : String := "uuid-" ++ toString n

/-- The data `Axon::then` feeds into the schematic: the transition label and
description plus the rendered `type_name_of` strings of the three generic
positions. -/
structure NodeMeta where
  label : String
  description : Option String := none
  input_type : String
  output_type : String
  resource_type : String
  deriving Repr, DecidableEq

/-- Schematic part of `Axon::start`: a fresh `Schematic` (its own uuid)
holding one `Ingress` node with input type `"void"`. -/
def schematicStart (label : String) (inTy resTy : String) (g : Nat) :
    Schematic × Nat :=
  let node : Node :=
    { id := mkUuid g, kind := .Ingress, label := label,
      description := none, input_type := "void", output_type := inTy,
      resource_type := resTy }
  let s : Schematic :=
    { id := mkUuid (g + 1), name := label, nodes := [node], edges := [] }
  (s, g + 2)

/-- Schematic part of `Axon::then`: append an `Atom` node and a `Linear`
edge from the previously last node to it.  Also returns the new node's id
(the source captures it for the executor's instrumentation). -/
def schematicThen (s : Schematic) (g : Nat) (m : NodeMeta) :
    Schematic × Nat × String :=
  let next_node_id := mkUuid g
  let next_node : Node :=
    { id := next_node_id, kind := .Atom, label := m.label,
      description := m.description, input_type := m.input_type,
      output_type := m.output_type, resource_type := m.resource_type }
  let last_node_id := ((s.nodes.getLast?).map (fun n => n.id)).getD ""
  ({ s with nodes := s.nodes ++ [next_node],
            edges := s.edges ++
              [{ from_ := last_node_id, to_ := next_node_id,
                 kind := .Linear, label := some "Next" }] },
   g + 1, next_node_id)

/-- Schematic part of `Axon::branch`: append a `Synapse` node plus a
`Branch(branch_id)` edge from the previously last node to the branch id. -/
def schematicBranch (s : Schematic) (g : Nat)
    (branch_id : String) (label : String) (outTy resTy : String) :
    Schematic × Nat :=
  let last_node_id := ((s.nodes.getLast?).map (fun n => n.id)).getD ""
  let branch_node : Node :=
    { id := mkUuid g, kind := .Synapse, label := label,
      description := none, input_type := outTy, output_type := outTy,
      resource_type := resTy }
  ({ s with nodes := s.nodes ++ [branch_node],
            edges := s.edges ++
              [{ from_ := last_node_id, to_ := branch_id,
                 kind := .Branch branch_id, label := some "Branch" }] },
   g + 1)

/-! ## The builder-call model for the schematic invariants -/

/-- One builder call after `start`, as far as the schematic is concerned. -/
inductive BuildCall where
  | thenCall (m : NodeMeta)
  | branchCall (branch_id : String) (label : String) (outTy resTy : String)
  deriving Repr

/-- Is this a `then` call? -/
def BuildCall.isThen : BuildCall → Bool
  | .thenCall _ => true
  | .branchCall _ _ _ _ => false

/-- Fold one builder call over the (schematic, uuid generator) state. -/
def applyBuildCall (sg : Schematic × Nat) : BuildCall → Schematic × Nat
  | .thenCall m =>
    let r := schematicThen sg.1 sg.2 m
    (r.1, r.2.1)
  | .branchCall bid lbl outTy resTy =>
    schematicBranch sg.1 sg.2 bid lbl outTy resTy

/-- The schematic of one `start` call followed by a sequence of `then` /
`branch` calls, in order. -/
def buildSchematic (startLabel inTy resTy : String) (calls : List BuildCall) :
    Schematic × Nat :=
  calls.foldl applyBuildCall (schematicStart startLabel inTy resTy 0)

/-! ## The Axon executor, builder and execute (src/runtime/src/axon.rs) -/

/-- The executor type: input, resources and bus to an outcome, threading the
bus mutation and the world (clock).  `Arc` sharing and the async boxing are
transparent in the embedding. -/
abbrev ExecFn (In Out E Res : Type) :=
  In → Res → Bus → World → Outcome Out E × Bus × World

/-- The `Transition` contract: label/description metadata plus `run`. -/
structure Transition (α β E Res : Type) where
  label : String
  description : Option String := none
  run : α → Res → Bus → World → Outcome β E × Bus × World

/-- `Axon`: the schematic, the composed executor, and the determinized uuid
generator (see the module comment). -/
structure Axon (In Out E Res : Type) where
  schematic : Schematic
  executor : ExecFn In Out E Res
  gen : Nat

/-- `outcome_type_name`. -/
def outcomeTypeName {Out E : Type} : Outcome Out E → String
  | .Next _ => "Next"
  | .Branch id _ => "Branch:" ++ id
  | .Jump id _ => "Jump:" ++ toString id
  | .Emit evt _ => "Emit:" ++ evt
  | .Fault _ => "Fault"

/-- `Axon::start`: the identity pipeline with one `Ingress` node.  `inTy`
and `resTy` stand for `type_name_of::<In>()` and `type_name_of::<Res>()`. -/
def Axon.start (In E Res : Type) (label : String) (inTy resTy : String) :
    Axon In In E Res :=
  let (s, g) := schematicStart label inTy resTy 0
  { schematic := s, gen := g,
    executor := fun input _res bus w => (.Next input, bus, w) }

/-- `Axon::then`: append the `Atom` node and `Linear` edge, and compose the
executor: run the previous chain; on `Next`, instrument and run the new
transition; on any other variant return it unchanged (the source writes
`other.map(|_| unreachable!())`, which by `Outcome::map` is exactly this
variant-preserving pass-through) without touching the transition. -/
def Axon.thenA {In Out Nxt E Res : Type} (ax : Axon In Out E Res)
    (tr : Transition Out Nxt E Res) (outTy nxtTy resTy : String) :
    Axon In Nxt E Res :=
  let r := schematicThen ax.schematic ax.gen
    { label := tr.label, description := tr.description,
      input_type := outTy, output_type := nxtTy, resource_type := resTy }
  let node_id := r.2.2
  let node_label := tr.label
  { schematic := r.1, gen := r.2.1,
    executor := fun input res bus w =>
      match ax.executor input res bus w with
      | (.Next t, bus1, w1) =>
        let (enter_ts, w2) := w1.nowMs
        let bus2 := timelinePush bus1
          (.NodeEnter node_id node_label enter_ts)
        let (result, bus3, w3) := tr.run t res bus2 w2
        let (exit_ts, w4) := w3.nowMs
        let duration_ms := exit_ts - enter_ts
        let bus4 := timelinePush bus3
          (.NodeExit node_id (outcomeTypeName result) duration_ms exit_ts)
        let bus5 :=
          match result with
          | .Branch branch_id _ =>
            timelinePush bus4 (.Branchtaken branch_id exit_ts)
          | _ => bus4
        (result, bus5, w4)
      | (.Branch id p, bus1, w1) => (.Branch id p, bus1, w1)
      | (.Jump id p, bus1, w1) => (.Jump id p, bus1, w1)
      | (.Emit evt p, bus1, w1) => (.Emit evt p, bus1, w1)
      | (.Fault e, bus1, w1) => (.Fault e, bus1, w1) }

/-- `Axon::branch`: schematic-only annotation; executor untouched. -/
def Axon.branchA {In Out E Res : Type} (ax : Axon In Out E Res)
    (branch_id : String) (label : String) (outTy resTy : String) :
    Axon In Out E Res :=
  let r := schematicBranch ax.schematic ax.gen branch_id label outTy resTy
  { ax with schematic := r.1, gen := r.2 }

/-- `ensure_timeline`: insert a fresh `Timeline` when the slot is empty;
report whether this call inserted it. -/
def ensureTimeline (bus : Bus) : Bool × Bus :=
  if bus.timeline.isSome then (false, bus)
  else (true, { bus with timeline := some Timeline.new })

/-- `should_attach_timeline`. -/
def shouldAttachTimeline (env : Env) (bus : Bus) : Bool :=
  if bus.timeline.isSome then true else hasTimelineOutputPath env

/-- `maybe_export_timeline`: decide `sampled || forced`, then persist the
sorted timeline under the configured mode; every path past the env check
records the decision in the sampling stats. -/
def maybeExportTimeline {Out E : Type} (env : Env) (bus : Bus)
    (outcome : Outcome Out E) (w : World) : World :=
  match env.timelineOutput with
  | none => w
  | some v =>
    if trimIsEmpty v then w
    else
      let path := v
      let sampled := sampledByBusId bus.id (timelineSampleRate env)
      let policy := timelineAdaptivePolicy env
      let forced := shouldForceExport outcome policy
      let should_export := sampled || forced
      if ¬ should_export then
        recordSamplingStats env w false sampled forced "none" policy
      else
        let timeline := ((bus.timeline).getD Timeline.new).sort
        let mode := asciiLower ((env.timelineMode).getD "overwrite")
        match writeTimelineWithPolicy env w path mode timeline with
        | (w1, some _) =>
          recordSamplingStats env w1 false sampled forced mode policy
        | (w1, none) =>
          recordSamplingStats env w1 true sampled forced mode policy

/-- The state `Axon::execute` builds before invoking the composed executor:
capture decision, optional fresh timeline, the ingress `NodeEnter` push. -/
structure Prologue where
  inserted : Bool
  enterTs : Nat
  bus : Bus
  world : World

/-- The prologue of `Axon::execute` (lines before the executor call). -/
def executePrologue (env : Env) (sch : Schematic) (bus : Bus) (w : World) :
    Prologue :=
  let should_capture := shouldAttachTimeline env bus
  let ib := if should_capture then ensureTimeline bus else (false, bus)
  let (enter_ts, w1) := w.nowMs
  let bus2 :=
    if should_capture then
      match ib.2.timeline, sch.nodes.head? with
      | some _, some ingress =>
        timelinePush ib.2 (.NodeEnter ingress.id ingress.label enter_ts)
      | _, _ => ib.2
    else ib.2
  ⟨ib.1, enter_ts, bus2, w1⟩

/-- `Axon::execute`. -/
def Axon.execute {In Out E Res : Type} (ax : Axon In Out E Res) (env : Env)
    (input : In) (res : Res) (bus : Bus) (w : World) :
    Outcome Out E × Bus × World :=
  let should_capture := shouldAttachTimeline env bus
  let pro := executePrologue env ax.schematic bus w
  let (outcome, bus3, w2) := ax.executor input res pro.bus pro.world
  let (exit_ts, w3) := w2.nowMs
  let bus4 :=
    if should_capture then
      match bus3.timeline, ax.schematic.nodes.head? with
      | some _, some ingress =>
        timelinePush bus3
          (.NodeExit ingress.id (outcomeTypeName outcome)
            (exit_ts - pro.enterTs) exit_ts)
      | _, _ => bus3
    else bus3
  let w4 := if should_capture then maybeExportTimeline env bus4 outcome w3
            else w3
  let bus5 := if pro.inserted then { bus4 with timeline := none } else bus4
  (outcome, bus5, w4)

/-- The export decision of `maybe_export_timeline`: `sampled || forced`. -/
def exportDecision {Out E : Type} (env : Env) (bus : Bus)
    (outcome : Outcome Out E) : Bool :=
  sampledByBusId bus.id (timelineSampleRate env) ||
    shouldForceExport outcome (timelineAdaptivePolicy env)

/-! ## Derived builder folds and invariants used by the statements -/

/-- The schematic/generator step of one `then` call (the schematic part of
`Axon::thenA`, which is `schematicThen` with the node id dropped). -/
def chainStep (sg : Schematic × Nat) (m : NodeMeta) : Schematic × Nat :=
  let r := schematicThen sg.1 sg.2 m
  (r.1, r.2.1)

/-- The schematic of `start(label)` followed by one `then` per entry of
`metas`, in order, with no `branch` calls. -/
def buildThenChain (startLabel inTy resTy : String) (metas : List NodeMeta) :
    Schematic :=
  (metas.foldl chainStep (schematicStart startLabel inTy resTy 0)).1

/-- Placeholder node for positional lookups in statements. -/
def dummyNode : Node :=
  { id := "", kind := .Atom, label := "", input_type := "",
    output_type := "", resource_type := "" }

/-- Placeholder edge for positional lookups in statements. -/
def dummyEdge : Edge := { from_ := "", to_ := "", kind := .Linear }

/-- Shape invariant of a pure `then` chain: one more node than edges, and
edge `i` links node `i` to node `i + 1` in construction order. -/
def chainInv (s : Schematic) : Prop :=
  s.nodes.length = s.edges.length + 1 ∧
  ∀ i, i < s.edges.length →
    (s.edges.getD i dummyEdge).from_ = (s.nodes.getD i dummyNode).id ∧
    (s.edges.getD i dummyEdge).to_ = (s.nodes.getD (i + 1) dummyNode).id

/-! ## Concrete fixtures used by the witness statements -/

/-- A transition that immediately branches. -/
def branchTrans : Transition Nat Nat String Unit :=
  { label := "brancher",
    run := fun _ _ bus w => (.Branch "out_of_stock" none, bus, w) }

/-- A transition that adds one. -/
def anyTrans : Transition Nat Nat String Unit :=
  { label := "add_one", run := fun n _ bus w => (.Next (n + 1), bus, w) }

/-- The identity Axon `start("X")` over `Nat`. -/
def startAx : Axon Nat Nat String Unit :=
  Axon.start Nat String Unit "X" "Nat" "()"

/-- `start("X").then(branchTrans)`: a chain whose result is a `Branch`. -/
def prevAx : Axon Nat Nat String Unit := startAx.thenA branchTrans "Nat" "Nat" "()"

/-- An empty bus with id 7. -/
def bus0 : Bus := { id := 7 }

/-- A bus carrying a caller-supplied (empty) timeline. -/
def busT : Bus := { id := 7, timeline := some ⟨[]⟩ }

/-- The initial world. -/
def w0 : World := {}

/-- A world in which every file write fails. -/
def wFail : World := { writeFails := fun _ => true }

/-- Environment: export path configured, rate 0, `fault_only` policy. -/
def envFaultOnly : Env :=
  { timelineOutput := some "tl.json", sampleRate := some 0,
    adaptive := some "fault_only" }

/-- Environment: only the export path configured. -/
def envPath : Env := { timelineOutput := some "tl.json" }

/-- Sample events for the append-mode witness. -/
def evA : TimelineEvent := .Branchtaken "a" 5

/-- Sample events for the append-mode witness. -/
def evB : TimelineEvent := .Branchtaken "b" 3

/-- A world whose destination file already holds a parseable timeline. -/
def wAppend : World := { files := [⟨"tl.json", .timelineFile ⟨[evA]⟩, 0⟩] }

/-- A world whose destination file exists but does not parse as a Timeline. -/
def wBadFile : World := { files := [⟨"tl.json", .unparseable "junk", 0⟩] }

/-! # Theorems -/

/-! ## List helpers -/

theorem getD_append_of_lt {α : Type} (l l2 : List α) (d : α) (i : Nat)
    (h : i < l.length) : (l ++ l2).getD i d = l.getD i d := by
  simp [List.getD_eq_getElem?_getD, List.getElem?_append, h]

theorem getD_append_at_length {α : Type} (l : List α) (x d : α) :
    (l ++ [x]).getD l.length d = x := by
  simp [List.getD_eq_getElem?_getD, List.getElem?_append]

theorem getLast?_map_getD_id (l : List Node) (h : l ≠ []) :
    ((l.getLast?).map (fun n => n.id)).getD "" =
      (l.getD (l.length - 1) dummyNode).id := by
  have hlt : l.length - 1 < l.length := by
    have hpos : 0 < l.length := List.length_pos.mpr h
    omega
  rw [List.getLast?_eq_getElem?, List.getD_eq_getElem?_getD,
    List.getElem?_eq_getElem hlt]
  simp

/-! ## Builder-chain shape lemmas (for C2 and C3) -/

theorem chainStep_counts (sg : Schematic × Nat) (m : NodeMeta) :
    (chainStep sg m).1.nodes.length = sg.1.nodes.length + 1 ∧
    (chainStep sg m).1.edges.length = sg.1.edges.length + 1 := by
  simp [chainStep, schematicThen]

theorem chain_counts_foldl (metas : List NodeMeta) :
    ∀ sg : Schematic × Nat,
      (metas.foldl chainStep sg).1.nodes.length
          = sg.1.nodes.length + metas.length ∧
      (metas.foldl chainStep sg).1.edges.length
          = sg.1.edges.length + metas.length := by
  induction metas with
  | nil => intro sg; simp
  | cons m rest ih =>
    intro sg
    rw [List.foldl_cons]
    have h1 := chainStep_counts sg m
    have h2 := ih (chainStep sg m)
    simp only [List.length_cons]
    omega

theorem chainInv_start (label inTy resTy : String) (g : Nat) :
    chainInv (schematicStart label inTy resTy g).1 := by
  constructor
  · simp [schematicStart]
  · intro i hi
    simp [schematicStart] at hi

theorem chainInv_chainStep (s : Schematic) (g : Nat) (m : NodeMeta)
    (h : chainInv s) : chainInv (chainStep (s, g) m).1 := by
  obtain ⟨hlen, hadj⟩ := h
  have hne : s.nodes ≠ [] := by
    intro hnil
    rw [hnil] at hlen
    simp at hlen
  constructor
  · simp [chainStep, schematicThen, hlen]
  · intro i hi
    simp only [chainStep, schematicThen, List.length_append,
      List.length_cons, List.length_nil] at hi ⊢
    by_cases hlt : i < s.edges.length
    · rw [getD_append_of_lt _ _ _ _ hlt,
        getD_append_of_lt _ _ _ _ (by omega : i < s.nodes.length),
        getD_append_of_lt _ _ _ _ (by omega : i + 1 < s.nodes.length)]
      exact hadj i hlt
    · have hieq : i = s.edges.length := by omega
      subst hieq
      rw [getD_append_at_length]
      constructor
      · rw [getD_append_of_lt _ _ _ _ (by omega : s.edges.length < s.nodes.length)]
        rw [getLast?_map_getD_id s.nodes hne]
        have hidx : s.nodes.length - 1 = s.edges.length := by omega
        rw [hidx]
      · rw [show s.edges.length + 1 = s.nodes.length from hlen.symm,
          getD_append_at_length]

theorem chainInv_foldl (metas : List NodeMeta) :
    ∀ sg : Schematic × Nat, chainInv sg.1 →
      chainInv (metas.foldl chainStep sg).1 := by
  induction metas with
  | nil =>
    intro sg h
    simpa using h
  | cons m rest ih =>
    intro sg h
    rw [List.foldl_cons]
    exact ih (chainStep sg m) (chainInv_chainStep sg.1 sg.2 m h)

theorem applyBuildCall_counts (sg : Schematic × Nat) (c : BuildCall) :
    (applyBuildCall sg c).1.nodes.length = sg.1.nodes.length + 1 ∧
    (applyBuildCall sg c).1.edges.length = sg.1.edges.length + 1 := by
  cases c <;> simp [applyBuildCall, schematicThen, schematicBranch]

theorem build_counts_foldl (calls : List BuildCall) :
    ∀ sg : Schematic × Nat,
      (calls.foldl applyBuildCall sg).1.nodes.length
          = sg.1.nodes.length + calls.length ∧
      (calls.foldl applyBuildCall sg).1.edges.length
          = sg.1.edges.length + calls.length := by
  induction calls with
  | nil => intro sg; simp
  | cons c rest ih =>
    intro sg
    rw [List.foldl_cons]
    have h1 := applyBuildCall_counts sg c
    have h2 := ih (applyBuildCall sg c)
    simp only [List.length_cons]
    omega

theorem length_filter_isThen_partition (calls : List BuildCall) :
    (calls.filter (fun c => c.isThen)).length +
      (calls.filter (fun c => !c.isThen)).length = calls.length := by
  induction calls with
  | nil => simp
  | cons c rest ih =>
    cases hc : c.isThen <;> simp [hc] <;> omega

/-! ## Claim theorems (first group) -/

/-- C2, counterexample: a single `branch` call after `start` already pushes
a `Synapse` node, so `nodes.len()` is 2 while the number of `start` + `then`
calls is 1. -/
theorem schematic_node_count_counterexample :
    (buildSchematic "S" "In" "()"
        [.branchCall "b" "lbl" "Out" "()"]).1.nodes.length = 2 ∧
    ¬ ((buildSchematic "S" "In" "()"
        [.branchCall "b" "lbl" "Out" "()"]).1.nodes.length =
      1 + (([BuildCall.branchCall "b" "lbl" "Out" "()"]).filter
            (fun c => c.isThen)).length) := by
  have h2 : (buildSchematic "S" "In" "()"
      [.branchCall "b" "lbl" "Out" "()"]).1.nodes.length = 2 := rfl
  refine ⟨h2, ?_⟩
  rw [h2]
  decide

/-- C2 (amended): for every sequence of builder calls on one Axon (one
`start` call followed by any interleaving of `then` and `branch` calls),
`nodes.len()` equals the number of `start` + `then` + `branch` calls and
`edges.len()` equals the number of `then` + `branch` calls. -/
theorem schematic_build_counts (startLabel inTy resTy : String)
    (calls : List BuildCall) :
    (buildSchematic startLabel inTy resTy calls).1.nodes.length =
      1 + (calls.filter (fun c => c.isThen)).length +
        (calls.filter (fun c => !c.isThen)).length ∧
    (buildSchematic startLabel inTy resTy calls).1.edges.length =
      (calls.filter (fun c => c.isThen)).length +
        (calls.filter (fun c => !c.isThen)).length := by
  have hc := build_counts_foldl calls (schematicStart startLabel inTy resTy 0)
  have hp := length_filter_isThen_partition calls
  have hn : (schematicStart startLabel inTy resTy 0).1.nodes.length = 1 := by
    simp [schematicStart]
  have he : (schematicStart startLabel inTy resTy 0).1.edges.length = 0 := by
    simp [schematicStart]
  constructor
  · show (calls.foldl applyBuildCall
      (schematicStart startLabel inTy resTy 0)).1.nodes.length = _
    omega
  · show (calls.foldl applyBuildCall
      (schematicStart startLabel inTy resTy 0)).1.edges.length = _
    omega

/-- C3: an Axon built by one `start(label)` call followed by exactly N
`then` calls and no `branch` calls has a schematic with exactly N + 1 nodes
and N edges, edge i linking node i (the previously last node) to node i + 1
(the newly appended node) in construction order. -/
theorem then_chain_schematic_shape (startLabel inTy resTy : String)
    (metas : List NodeMeta) :
    (buildThenChain startLabel inTy resTy metas).nodes.length
        = metas.length + 1 ∧
    (buildThenChain startLabel inTy resTy metas).edges.length
        = metas.length ∧
    ∀ i, i < metas.length →
      ((buildThenChain startLabel inTy resTy metas).edges.getD i
          dummyEdge).from_ =
        ((buildThenChain startLabel inTy resTy metas).nodes.getD i
          dummyNode).id ∧
      ((buildThenChain startLabel inTy resTy metas).edges.getD i
          dummyEdge).to_ =
        ((buildThenChain startLabel inTy resTy metas).nodes.getD (i + 1)
          dummyNode).id := by
  have hc := chain_counts_foldl metas (schematicStart startLabel inTy resTy 0)
  have hinv := chainInv_foldl metas (schematicStart startLabel inTy resTy 0)
    (chainInv_start startLabel inTy resTy 0)
  have hn : (schematicStart startLabel inTy resTy 0).1.nodes.length = 1 := by
    simp [schematicStart]
  have he : (schematicStart startLabel inTy resTy 0).1.edges.length = 0 := by
    simp [schematicStart]
  have hedges : (buildThenChain startLabel inTy resTy metas).edges.length
      = metas.length := by
    show (metas.foldl chainStep
      (schematicStart startLabel inTy resTy 0)).1.edges.length = _
    omega
  refine ⟨?_, hedges, ?_⟩
  · show (metas.foldl chainStep
      (schematicStart startLabel inTy resTy 0)).1.nodes.length = _
    omega
  · intro i hi
    have hc2 := hc.2
    exact hinv.2 i (by omega)

/-- C3 witness: the shape facts at a concrete two-step chain. -/
theorem then_chain_schematic_shape_witness :
    (buildThenChain "X" "Nat" "()"
        [{ label := "a", input_type := "Nat", output_type := "Nat",
           resource_type := "()" },
         { label := "b", input_type := "Nat", output_type := "Nat",
           resource_type := "()" }]).nodes.length = 2 + 1 ∧
    (buildThenChain "X" "Nat" "()"
        [{ label := "a", input_type := "Nat", output_type := "Nat",
           resource_type := "()" },
         { label := "b", input_type := "Nat", output_type := "Nat",
           resource_type := "()" }]).edges.length = 2 ∧
    ∀ i, i < 2 →
      ((buildThenChain "X" "Nat" "()"
          [{ label := "a", input_type := "Nat", output_type := "Nat",
             resource_type := "()" },
           { label := "b", input_type := "Nat", output_type := "Nat",
             resource_type := "()" }]).edges.getD i dummyEdge).from_ =
        ((buildThenChain "X" "Nat" "()"
          [{ label := "a", input_type := "Nat", output_type := "Nat",
             resource_type := "()" },
           { label := "b", input_type := "Nat", output_type := "Nat",
             resource_type := "()" }]).nodes.getD i dummyNode).id ∧
      ((buildThenChain "X" "Nat" "()"
          [{ label := "a", input_type := "Nat", output_type := "Nat",
             resource_type := "()" },
           { label := "b", input_type := "Nat", output_type := "Nat",
             resource_type := "()" }]).edges.getD i dummyEdge).to_ =
        ((buildThenChain "X" "Nat" "()"
          [{ label := "a", input_type := "Nat", output_type := "Nat",
             resource_type := "()" },
           { label := "b", input_type := "Nat", output_type := "Nat",
             resource_type := "()" }]).nodes.getD (i + 1) dummyNode).id := by
  have hm : (2 : Nat) =
      ([{ label := "a", input_type := "Nat", output_type := "Nat",
          resource_type := "()" },
        { label := "b", input_type := "Nat", output_type := "Nat",
          resource_type := "()" }] : List NodeMeta).length := rfl
  rw [hm]
  exact then_chain_schematic_shape "X" "Nat" "()" _

/-- C4: for every bus id and rate in `[0, 1]`, the sampling decision equals
`bucket / 10000 < rate` with `bucket = id mod 10000` in `[0, 10000)`, and
evaluating the decision twice yields the same result. -/
theorem sampling_bucket_decision (busId : Nat) (r : ℚ)
    (h0 : 0 ≤ r) (h1 : r ≤ 1) :
    (sampledByBusId busId r =
      decide (((busId % 10000 : Nat) : ℚ) / 10000 < r)) ∧
    busId % 10000 < 10000 ∧
    sampledByBusId busId r = sampledByBusId busId r := by
  refine ⟨?_, Nat.mod_lt _ (by norm_num), rfl⟩
  by_cases hle : r ≤ 0
  · have hr0 : r = 0 := le_antisymm hle h0
    subst hr0
    have hx : ¬ (((busId % 10000 : Nat) : ℚ) / 10000 < 0) := by
      refine not_lt.mpr ?_
      positivity
    simp [sampledByBusId, hx]
  · by_cases hge : 1 ≤ r
    · have hr1 : r = 1 := le_antisymm h1 hge
      subst hr1
      have hx : (((busId % 10000 : Nat) : ℚ) / 10000 < 1) := by
        rw [div_lt_one (by norm_num)]
        exact_mod_cast Nat.mod_lt busId (by norm_num)
      simp [sampledByBusId, hx]
    · simp [sampledByBusId, hle, hge]

/-- C4 witness: the decision facts at bus id 123456 and rate 1/2. -/
theorem sampling_bucket_decision_witness :
    (sampledByBusId 123456 (1 / 2) =
      decide (((123456 % 10000 : Nat) : ℚ) / 10000 < 1 / 2)) ∧
    123456 % 10000 < 10000 ∧
    sampledByBusId 123456 (1 / 2) = sampledByBusId 123456 (1 / 2) :=
  sampling_bucket_decision 123456 (1 / 2) (by norm_num) (by norm_num)

/-! ## World, stats and sorting helpers -/

theorem stats_setFile (w : World) (p : String) (e : FSEntry) :
    (w.setFile p e).stats = w.stats := rfl

theorem lookupFile_setFileRecs_self (l : List FileRec) (p : String)
    (e : FSEntry) (c : Nat) :
    lookupFile (setFileRecs l p e c) p = some e := by
  induction l with
  | nil => simp [setFileRecs, lookupFile]
  | cons a rest ih =>
    by_cases hap : a.path = p <;> simp [setFileRecs, lookupFile, hap, ih]

theorem lookupFile_setFileRecs_ne (l : List FileRec) (p q : String)
    (e : FSEntry) (c : Nat) (h : ¬ q = p) :
    lookupFile (setFileRecs l p e c) q = lookupFile l q := by
  induction l with
  | nil =>
    simp [setFileRecs, lookupFile]
    intro hh
    exact absurd hh.symm h
  | cons a rest ih =>
    by_cases hap : a.path = p
    · have hpq : ¬ (p = q) := fun hh => h hh.symm
      simp [setFileRecs, lookupFile, hap, hpq]
    · by_cases haq : a.path = q <;>
        simp [setFileRecs, lookupFile, hap, haq, h, ih]

theorem getFile_setFile_self (w : World) (p : String) (e : FSEntry) :
    (w.setFile p e).getFile p = some e := by
  unfold World.setFile World.getFile
  exact lookupFile_setFileRecs_self w.files p e w.clock

theorem getFile_setFile_ne (w : World) (p q : String) (e : FSEntry)
    (h : ¬ q = p) : (w.setFile p e).getFile q = w.getFile q := by
  unfold World.setFile World.getFile
  exact lookupFile_setFileRecs_ne w.files p q e w.clock h

theorem getFile_eq_of_files_eq (w w2 : World) (q : String)
    (h : w.files = w2.files) : w.getFile q = w2.getFile q := by
  unfold World.getFile
  rw [h]

theorem stats_writeTimelineJson (w : World) (p : String) (t : Timeline) :
    ((writeTimelineJson w p t).1).stats = w.stats := by
  unfold writeTimelineJson
  split <;> rfl

theorem stats_cleanupRotatedFiles (w : World) (b : String) (k : Nat) :
    ((cleanupRotatedFiles w b k).1).stats = w.stats := rfl

theorem stats_writeTimelineWithPolicy (env : Env) (w : World)
    (path mode : String) (t : Timeline) :
    ((writeTimelineWithPolicy env w path mode t).1).stats = w.stats := by
  unfold writeTimelineWithPolicy
  split
  · rcases hf : w.getFile path with _ | entry
    · simp [stats_writeTimelineJson]
    · cases entry <;> simp [stats_writeTimelineJson]
  · split
    · rcases hwj : writeTimelineJson (w.nowMs).2 (rotatedPath path (w.nowMs).1) t
        with ⟨w2, err⟩
      have hst : w2.stats = w.stats := by
        have := stats_writeTimelineJson (w.nowMs).2 (rotatedPath path (w.nowMs).1) t
        rw [hwj] at this
        exact this
      cases err
      · rcases hk : rotateKeepLimit env with _ | keep <;>
          simp [hwj, hk, stats_cleanupRotatedFiles, hst]
      · simp [hwj, hst]
    · simp [stats_writeTimelineJson]

theorem writeFails_writeTimelineJson (w : World) (p : String) (t : Timeline) :
    ((writeTimelineJson w p t).1).writeFails = w.writeFails := by
  unfold writeTimelineJson
  split <;> rfl

theorem writeTimelineWithPolicy_fails_err (env : Env) (w : World)
    (path mode : String) (t : Timeline)
    (hwf : ∀ q, w.writeFails q = true) :
    ((writeTimelineWithPolicy env w path mode t).2).isSome = true := by
  unfold writeTimelineWithPolicy
  split
  · rcases hf : w.getFile path with _ | entry
    · simp [writeTimelineJson, hwf path]
    · cases entry <;> simp [writeTimelineJson, hwf path]
  · split
    · simp [writeTimelineJson, World.nowMs, hwf]
    · simp [writeTimelineJson, hwf path]

theorem recordSamplingStats_stats_eq (env : Env) (w : World)
    (exported sampled forced : Bool) (mode policy : String) :
    (recordSamplingStats env w exported sampled forced mode policy).stats =
      { total_decisions := u64succ w.stats.total_decisions,
        exported :=
          if exported then u64succ w.stats.exported else w.stats.exported,
        skipped :=
          if exported then w.stats.skipped else u64succ w.stats.skipped,
        sampled_exports :=
          if sampled && exported then u64succ w.stats.sampled_exports
          else w.stats.sampled_exports,
        forced_exports :=
          if forced && exported then u64succ w.stats.forced_exports
          else w.stats.forced_exports,
        last_mode := mode,
        last_policy := policy,
        last_updated_ms := w.clock } := by
  unfold recordSamplingStats World.nowMs
  rcases htso : timelineStatsOutputPath env with _ | path <;>
    cases exported <;> cases sampled <;> cases forced <;>
      simp [htso, World.setFile] <;> split <;> rfl

theorem files_recordSamplingStats_of_none (env : Env) (w : World)
    (a b c : Bool) (mode policy : String) (hso : env.statsOutput = none) :
    (recordSamplingStats env w a b c mode policy).files = w.files := by
  have htso : timelineStatsOutputPath env = none := by
    simp [timelineStatsOutputPath, hso]
  unfold recordSamplingStats World.nowMs
  simp [htso]

theorem timelinePush_isSome (b : Bus) (ev : TimelineEvent) :
    ((timelinePush b ev).timeline).isSome = (b.timeline).isSome := by
  rcases hb : b.timeline with _ | t <;> simp [timelinePush, hb]

theorem isSortedByTs_tail (x : TimelineEvent) (xs : List TimelineEvent)
    (h : isSortedByTs (x :: xs) = true) : isSortedByTs xs = true := by
  cases xs with
  | nil => rfl
  | cons y ys =>
    simp [isSortedByTs] at h
    exact h.2

theorem insertByTimestamp_sorted (x : TimelineEvent)
    (l : List TimelineEvent) (h : isSortedByTs l = true) :
    isSortedByTs (insertByTimestamp x l) = true := by
  induction l with
  | nil => rfl
  | cons y ys ih =>
    by_cases hxy : x.timestamp ≤ y.timestamp
    · simp only [insertByTimestamp, if_pos hxy]
      simp [isSortedByTs, hxy, h]
    · have hys := isSortedByTs_tail y ys h
      have hrec := ih hys
      cases ys with
      | nil =>
        simp only [insertByTimestamp, if_neg hxy]
        simp [isSortedByTs]
        omega
      | cons z zs =>
        simp only [insertByTimestamp, if_neg hxy]
        by_cases hxz : x.timestamp ≤ z.timestamp
        · simp only [if_pos hxz]
          simp [isSortedByTs] at h ⊢
          exact ⟨by omega, hxz, h.2⟩
        · simp only [if_neg hxz]
          simp only [insertByTimestamp, if_neg hxz] at hrec
          simp [isSortedByTs] at h ⊢
          exact ⟨h.1, hrec⟩

theorem sortEvents_sorted (l : List TimelineEvent) :
    isSortedByTs (sortEvents l) = true := by
  induction l with
  | nil => rfl
  | cons x xs ih => exact insertByTimestamp_sorted x (sortEvents xs) ih

theorem insertByTimestamp_perm (x : TimelineEvent)
    (l : List TimelineEvent) : (insertByTimestamp x l).Perm (x :: l) := by
  induction l with
  | nil => exact List.Perm.refl _
  | cons y ys ih =>
    by_cases h : x.timestamp ≤ y.timestamp
    · simp only [insertByTimestamp, if_pos h]
      exact List.Perm.refl _
    · simp only [insertByTimestamp, if_neg h]
      exact (ih.cons y).trans (List.Perm.swap x y ys)

theorem sortEvents_perm (l : List TimelineEvent) :
    (sortEvents l).Perm l := by
  induction l with
  | nil => exact List.Perm.refl _
  | cons x xs ih =>
    exact (insertByTimestamp_perm x (sortEvents xs)).trans (ih.cons x)

theorem isSortedByTs_drop (k : Nat) (l : List TimelineEvent)
    (h : isSortedByTs l = true) : isSortedByTs (l.drop k) = true := by
  induction k generalizing l with
  | zero => simpa using h
  | succ n ih =>
    cases l with
    | nil => rfl
    | cons x xs =>
      simp only [List.drop_succ_cons]
      exact ih xs (isSortedByTs_tail x xs h)

theorem truncOpt_sorted (env : Env) (t : Timeline)
    (h : isSortedByTs t.events = true) :
    isSortedByTs (truncOpt env t).events = true := by
  unfold truncOpt truncateTimelineEvents
  rcases maxEventsLimit env with _ | m
  · exact h
  · simp only []
    split
    · exact isSortedByTs_drop _ _ h
    · exact h

theorem truncOpt_len_le (env : Env) (t : Timeline) (m : Nat)
    (hm : maxEventsLimit env = some m) :
    (truncOpt env t).events.length ≤ m := by
  unfold truncOpt truncateTimelineEvents
  rw [hm]
  simp only []
  split
  · simp [List.length_drop]
    omega
  · simp only [not_lt] at *
    omega

theorem shouldAttach_of_path (env : Env) (bus : Bus) (p : String)
    (hpath : env.timelineOutput = some p) (hne : trimIsEmpty p = false) :
    shouldAttachTimeline env bus = true := by
  unfold shouldAttachTimeline hasTimelineOutputPath
  rw [hpath]
  cases hb : (bus.timeline).isSome <;> simp [hb, hne]

theorem maybeExport_eq_skip {Out E : Type} (env : Env) (bus : Bus)
    (o : Outcome Out E) (w : World) (p : String)
    (hpath : env.timelineOutput = some p) (hne : trimIsEmpty p = false)
    (hdec : exportDecision env bus o = false) :
    maybeExportTimeline env bus o w =
      recordSamplingStats env w false
        (sampledByBusId bus.id (timelineSampleRate env))
        (shouldForceExport o (timelineAdaptivePolicy env))
        "none" (timelineAdaptivePolicy env) := by
  have hor : (sampledByBusId bus.id (timelineSampleRate env) ||
      shouldForceExport o (timelineAdaptivePolicy env)) = false := hdec
  unfold maybeExportTimeline
  rw [hpath]
  simp [hne, hor]

theorem maybeExport_eq_export_ok {Out E : Type} (env : Env) (bus : Bus)
    (o : Outcome Out E) (w : World) (p : String) (w1 : World)
    (hpath : env.timelineOutput = some p) (hne : trimIsEmpty p = false)
    (hdec : exportDecision env bus o = true)
    (hwp : writeTimelineWithPolicy env w p
        (asciiLower ((env.timelineMode).getD "overwrite"))
        (((bus.timeline).getD Timeline.new).sort) = (w1, none)) :
    maybeExportTimeline env bus o w =
      recordSamplingStats env w1 true
        (sampledByBusId bus.id (timelineSampleRate env))
        (shouldForceExport o (timelineAdaptivePolicy env))
        (asciiLower ((env.timelineMode).getD "overwrite"))
        (timelineAdaptivePolicy env) := by
  have hor : (sampledByBusId bus.id (timelineSampleRate env) ||
      shouldForceExport o (timelineAdaptivePolicy env)) = true := hdec
  unfold maybeExportTimeline
  rw [hpath]
  simp [hne, hor, hwp]

theorem maybeExport_eq_export_err {Out E : Type} (env : Env) (bus : Bus)
    (o : Outcome Out E) (w : World) (p : String) (w1 : World) (err : String)
    (hpath : env.timelineOutput = some p) (hne : trimIsEmpty p = false)
    (hdec : exportDecision env bus o = true)
    (hwp : writeTimelineWithPolicy env w p
        (asciiLower ((env.timelineMode).getD "overwrite"))
        (((bus.timeline).getD Timeline.new).sort) = (w1, some err)) :
    maybeExportTimeline env bus o w =
      recordSamplingStats env w1 false
        (sampledByBusId bus.id (timelineSampleRate env))
        (shouldForceExport o (timelineAdaptivePolicy env))
        (asciiLower ((env.timelineMode).getD "overwrite"))
        (timelineAdaptivePolicy env) := by
  have hor : (sampledByBusId bus.id (timelineSampleRate env) ||
      shouldForceExport o (timelineAdaptivePolicy env)) = true := hdec
  unfold maybeExportTimeline
  rw [hpath]
  simp [hne, hor, hwp]

theorem maybeExport_total {Out E : Type} (env : Env) (bus : Bus)
    (o : Outcome Out E) (w : World) (p : String)
    (hpath : env.timelineOutput = some p) (hne : trimIsEmpty p = false) :
    (maybeExportTimeline env bus o w).stats.total_decisions
      = u64succ w.stats.total_decisions := by
  by_cases hdec : exportDecision env bus o = true
  · rcases hwp : writeTimelineWithPolicy env w p
        (asciiLower ((env.timelineMode).getD "overwrite"))
        (((bus.timeline).getD Timeline.new).sort) with ⟨w1, err⟩
    have hst : w1.stats = w.stats := by
      have hh := stats_writeTimelineWithPolicy env w p
        (asciiLower ((env.timelineMode).getD "overwrite"))
        (((bus.timeline).getD Timeline.new).sort)
      rw [hwp] at hh
      exact hh
    cases err with
    | none =>
      rw [maybeExport_eq_export_ok env bus o w p w1 hpath hne hdec hwp,
        recordSamplingStats_stats_eq]
      simp [hst]
    | some e =>
      rw [maybeExport_eq_export_err env bus o w p w1 e hpath hne hdec hwp,
        recordSamplingStats_stats_eq]
      simp [hst]
  · have hdec2 : exportDecision env bus o = false := by
      cases hd : exportDecision env bus o
      · rfl
      · exact absurd hd hdec
    rw [maybeExport_eq_skip env bus o w p hpath hne hdec2,
      recordSamplingStats_stats_eq]

/-! ## Claim theorems (second group) -/

/-- C1: for every Axon extended with `then(f)` and every execution in which
the earlier steps produce an Outcome `o` that is not `Next`, the composed
executor returns `o` unchanged (same variant, same identifier and payload,
which is what `Outcome::map` does on non-`Next` variants) without invoking
the new transition (the result is independent of it), and `execute`
returns the composed executor's outcome to the caller verbatim. -/
theorem outcome_short_circuit_then {In Out Nxt E Res : Type}
    (prev : Axon In Out E Res) (tr : Transition Out Nxt E Res)
    (outTy nxtTy resTy : String) (input : In) (res : Res)
    (bus : Bus) (w : World) (o : Outcome Out E) (bus1 : Bus) (w1 : World)
    (hprev : prev.executor input res bus w = (o, bus1, w1))
    (hnn : o.is_next = false) :
    (∀ f : Out → Nxt,
      (prev.thenA tr outTy nxtTy resTy).executor input res bus w
        = (o.map f, bus1, w1)) ∧
    (∀ f g : Out → Nxt, (o.map f : Outcome Nxt E) = o.map g) ∧
    (∀ g : Out → Out, o.map g = o) ∧
    (∀ (env : Env) (busX : Bus) (wX : World),
      ((prev.thenA tr outTy nxtTy resTy).execute env input res busX wX).1 =
        ((prev.thenA tr outTy nxtTy resTy).executor input res
          (executePrologue env
            (prev.thenA tr outTy nxtTy resTy).schematic busX wX).bus
          (executePrologue env
            (prev.thenA tr outTy nxtTy resTy).schematic busX wX).world).1) := by
  refine ⟨?_, ?_, ?_, ?_⟩
  · intro f
    unfold Axon.thenA
    dsimp only
    rw [hprev]
    cases o with
    | Next t => simp [Outcome.is_next] at hnn
    | Branch id payload => rfl
    | Jump id payload => rfl
    | Emit evt payload => rfl
    | Fault e => rfl
  · intro f g
    cases o with
    | Next t => simp [Outcome.is_next] at hnn
    | Branch id payload => rfl
    | Jump id payload => rfl
    | Emit evt payload => rfl
    | Fault e => rfl
  · intro g
    cases o with
    | Next t => simp [Outcome.is_next] at hnn
    | Branch id payload => rfl
    | Jump id payload => rfl
    | Emit evt payload => rfl
    | Fault e => rfl
  · intro env busX wX
    rcases hx : (prev.thenA tr outTy nxtTy resTy).executor input res
        (executePrologue env
          (prev.thenA tr outTy nxtTy resTy).schematic busX wX).bus
        (executePrologue env
          (prev.thenA tr outTy nxtTy resTy).schematic busX wX).world
      with ⟨o2, b3, w2⟩
    unfold Axon.execute
    simp [hx]

/-- C1 witness: a concrete chain whose earlier steps produce
`Branch("out_of_stock", None)`, extended with a further transition. -/
theorem outcome_short_circuit_then_witness :
    (∀ f : Nat → Nat,
      (prevAx.thenA anyTrans "Nat" "Nat" "()").executor 5 () bus0 w0
        = ((Outcome.Branch "out_of_stock" none : Outcome Nat String).map f,
           bus0, { w0 with clock := 2 })) ∧
    (∀ f g : Nat → Nat,
      ((Outcome.Branch "out_of_stock" none : Outcome Nat String).map f
          : Outcome Nat String)
        = (Outcome.Branch "out_of_stock" none : Outcome Nat String).map g) ∧
    (∀ g : Nat → Nat,
      (Outcome.Branch "out_of_stock" none : Outcome Nat String).map g
        = .Branch "out_of_stock" none) ∧
    (∀ (env : Env) (busX : Bus) (wX : World),
      ((prevAx.thenA anyTrans "Nat" "Nat" "()").execute env 5 () busX wX).1 =
        ((prevAx.thenA anyTrans "Nat" "Nat" "()").executor 5 ()
          (executePrologue env
            (prevAx.thenA anyTrans "Nat" "Nat" "()").schematic busX wX).bus
          (executePrologue env
            (prevAx.thenA anyTrans "Nat" "Nat" "()").schematic busX wX).world).1) :=
  outcome_short_circuit_then prevAx anyTrans "Nat" "Nat" "()" 5 () bus0 w0
    (.Branch "out_of_stock" none) bus0 { w0 with clock := 2 } rfl rfl

/-- C8: the caller of `execute` receives exactly the Outcome the composed
executor produced, for every world (including worlds where every file read,
parse or write during export fails); export failures are never converted
into a `Fault`; and the sampling-stats counters still record the decision
(total_decisions is incremented exactly once past the executor's world). -/
theorem execute_outcome_unaffected_by_export {In Out E Res : Type}
    (ax : Axon In Out E Res) (env : Env) (input : In) (res : Res)
    (bus : Bus) (w : World) (p : String)
    (hpath : env.timelineOutput = some p) (hne : trimIsEmpty p = false) :
    ((ax.execute env input res bus w).1 =
      (ax.executor input res (executePrologue env ax.schematic bus w).bus
        (executePrologue env ax.schematic bus w).world).1) ∧
    ((ax.execute env input res bus w).1.is_fault =
      (ax.executor input res (executePrologue env ax.schematic bus w).bus
        (executePrologue env ax.schematic bus w).world).1.is_fault) ∧
    ((ax.execute env input res bus w).2.2.stats.total_decisions =
      u64succ ((ax.executor input res
        (executePrologue env ax.schematic bus w).bus
        (executePrologue env ax.schematic bus w).world).2.2.stats.total_decisions)) := by
  have hsc := shouldAttach_of_path env bus p hpath hne
  rcases hx : ax.executor input res (executePrologue env ax.schematic bus w).bus
      (executePrologue env ax.schematic bus w).world with ⟨o, b3, w2⟩
  refine ⟨?_, ?_, ?_⟩
  · unfold Axon.execute
    simp [hx]
  · unfold Axon.execute
    simp [hx]
  · unfold Axon.execute
    simp only [hx, hsc, if_true]
    rw [maybeExport_total env _ o _ p hpath hne]
    rfl

/-- C8 witness: a start Axon executed against a world in which every file
write fails. -/
theorem execute_outcome_unaffected_by_export_witness :
    ((startAx.execute envPath 5 () bus0 wFail).1 =
      (startAx.executor 5 ()
        (executePrologue envPath startAx.schematic bus0 wFail).bus
        (executePrologue envPath startAx.schematic bus0 wFail).world).1) ∧
    ((startAx.execute envPath 5 () bus0 wFail).1.is_fault =
      (startAx.executor 5 ()
        (executePrologue envPath startAx.schematic bus0 wFail).bus
        (executePrologue envPath startAx.schematic bus0 wFail).world).1.is_fault) ∧
    ((startAx.execute envPath 5 () bus0 wFail).2.2.stats.total_decisions =
      u64succ ((startAx.executor 5 ()
        (executePrologue envPath startAx.schematic bus0 wFail).bus
        (executePrologue envPath startAx.schematic bus0 wFail).world).2.2.stats.total_decisions)) :=
  execute_outcome_unaffected_by_export startAx envPath 5 () bus0 wFail
    "tl.json" rfl (by decide)

/-- C9: when the caller's Bus holds no Timeline and capture is activated by
a configured export path, the freshly inserted Timeline is removed again
before `execute` returns (the slot is absent); a caller-supplied Timeline is
not removed by this mechanism and remains in the Bus (given the executor
left the slot occupied, as every composed chain here does). -/
theorem execute_timeline_frame {In Out E Res : Type}
    (ax : Axon In Out E Res) (env : Env) (input : In) (res : Res)
    (busA busB : Bus) (w : World) (t0 : Timeline)
    (hA : busA.timeline = none)
    (hcap : hasTimelineOutputPath env = true)
    (hB : busB.timeline = some t0)
    (hpres : ((ax.executor input res
        (executePrologue env ax.schematic busB w).bus
        (executePrologue env ax.schematic busB w).world).2.1.timeline).isSome
      = true) :
    ((ax.execute env input res busA w).2.1.timeline = none) ∧
    (((ax.execute env input res busB w).2.1.timeline).isSome = true) := by
  constructor
  · have hscA : shouldAttachTimeline env busA = true := by
      simp [shouldAttachTimeline, hA, hcap]
    have hins : (executePrologue env ax.schematic busA w).inserted = true := by
      simp [executePrologue, ensureTimeline, hA, hscA]
    rcases hx : ax.executor input res
        (executePrologue env ax.schematic busA w).bus
        (executePrologue env ax.schematic busA w).world with ⟨o, b3, w2⟩
    unfold Axon.execute
    simp [hx, hins]
  · have hscB : shouldAttachTimeline env busB = true := by
      simp [shouldAttachTimeline, hB]
    have hins : (executePrologue env ax.schematic busB w).inserted = false := by
      simp [executePrologue, ensureTimeline, hB, hscB]
    rcases hx : ax.executor input res
        (executePrologue env ax.schematic busB w).bus
        (executePrologue env ax.schematic busB w).world with ⟨o, b3, w2⟩
    rw [hx] at hpres
    unfold Axon.execute
    simp only [hx, hins]
    rcases hb3 : b3.timeline with _ | t3
    · rw [hb3] at hpres
      simp at hpres
    · rcases hh : ax.schematic.nodes.head? with _ | ingress <;>
        cases hbb : shouldAttachTimeline env busB <;>
          simp [hb3, hh, timelinePush, hins]

/-- C9 witness: the start Axon against an empty bus (fresh timeline removed)
and a bus carrying a caller-supplied timeline (kept). -/
theorem execute_timeline_frame_witness :
    ((startAx.execute envPath 5 () bus0 w0).2.1.timeline = none) ∧
    (((startAx.execute envPath 5 () busT w0).2.1.timeline).isSome = true) :=
  execute_timeline_frame startAx envPath 5 () bus0 busT w0 ⟨[]⟩
    rfl (by decide) rfl (by rfl)

/-- C5: the export decision is `sampled OR forced`; under the `fault_only`
adaptive policy the force trigger is exactly a `Fault` final outcome, so
with sample rate 0 a `Fault` outcome is still exported (file written,
`exported` counter bumped) while a non-`Fault` outcome is not (nothing
written, `skipped` counter bumped). -/
theorem fault_only_forced_export {Out E : Type} (env : Env) (bus : Bus)
    (oF oN : Outcome Out E) (w : World) (p : String)
    (hpath : env.timelineOutput = some p) (hne : trimIsEmpty p = false)
    (hpol : timelineAdaptivePolicy env = "fault_only")
    (hrate : timelineSampleRate env = 0)
    (hmode : env.timelineMode = none)
    (hstats : env.statsOutput = none)
    (hwf : w.writeFails p = false)
    (hF : oF.is_fault = true) (hN : oN.is_fault = false) :
    (∀ oX : Outcome Out E, shouldForceExport oX "fault_only" = oX.is_fault) ∧
    exportDecision env bus oF = true ∧
    exportDecision env bus oN = false ∧
    (maybeExportTimeline env bus oN w).stats.skipped
      = u64succ w.stats.skipped ∧
    (maybeExportTimeline env bus oN w).stats.exported = w.stats.exported ∧
    (maybeExportTimeline env bus oN w).files = w.files ∧
    (maybeExportTimeline env bus oF w).stats.exported
      = u64succ w.stats.exported ∧
    (maybeExportTimeline env bus oF w).stats.skipped = w.stats.skipped ∧
    (maybeExportTimeline env bus oF w).getFile p =
      some (.timelineFile (((bus.timeline).getD Timeline.new).sort)) := by
  have hforce : ∀ oX : Outcome Out E,
      shouldForceExport oX "fault_only" = oX.is_fault := fun oX => rfl
  have hsampled : sampledByBusId bus.id (timelineSampleRate env) = false := by
    rw [hrate]
    simp [sampledByBusId]
  have hforcedF : shouldForceExport oF (timelineAdaptivePolicy env) = true := by
    rw [hpol, hforce oF, hF]
  have hforcedN : shouldForceExport oN (timelineAdaptivePolicy env) = false := by
    rw [hpol, hforce oN, hN]
  have hdecF : exportDecision env bus oF = true := by
    unfold exportDecision
    rw [hsampled, hforcedF]
    rfl
  have hdecN : exportDecision env bus oN = false := by
    unfold exportDecision
    rw [hsampled, hforcedN]
    rfl
  have hmodeeq : asciiLower ((env.timelineMode).getD "overwrite")
      = "overwrite" := by
    rw [hmode]
    rfl
  have hwp : writeTimelineWithPolicy env w p
      (asciiLower ((env.timelineMode).getD "overwrite"))
      (((bus.timeline).getD Timeline.new).sort)
      = (w.setFile p
          (.timelineFile (((bus.timeline).getD Timeline.new).sort)), none) := by
    rw [hmodeeq]
    unfold writeTimelineWithPolicy
    rw [if_neg (by decide : ¬ ("overwrite" = "append")),
      if_neg (by decide : ¬ ("overwrite" = "rotate"))]
    unfold writeTimelineJson
    rw [hwf]
    simp
  have hskipN := maybeExport_eq_skip env bus oN w p hpath hne hdecN
  have hexpF := maybeExport_eq_export_ok env bus oF w p _ hpath hne hdecF hwp
  refine ⟨hforce, hdecF, hdecN, ?_, ?_, ?_, ?_, ?_, ?_⟩
  · rw [hskipN, recordSamplingStats_stats_eq]
    simp
  · rw [hskipN, recordSamplingStats_stats_eq]
    simp
  · rw [hskipN]
    exact files_recordSamplingStats_of_none env w false _ _ _ _ hstats
  · rw [hexpF, recordSamplingStats_stats_eq]
    simp [stats_setFile]
  · rw [hexpF, recordSamplingStats_stats_eq]
    simp [stats_setFile]
  · rw [hexpF]
    have hfiles := files_recordSamplingStats_of_none env
      (w.setFile p (.timelineFile (((bus.timeline).getD Timeline.new).sort)))
      true (sampledByBusId bus.id (timelineSampleRate env))
      (shouldForceExport oF (timelineAdaptivePolicy env))
      (asciiLower ((env.timelineMode).getD "overwrite"))
      (timelineAdaptivePolicy env) hstats
    show lookupFile (recordSamplingStats env
      (w.setFile p (.timelineFile (((bus.timeline).getD Timeline.new).sort)))
      true (sampledByBusId bus.id (timelineSampleRate env))
      (shouldForceExport oF (timelineAdaptivePolicy env))
      (asciiLower ((env.timelineMode).getD "overwrite"))
      (timelineAdaptivePolicy env)).files p = _
    rw [hfiles]
    exact getFile_setFile_self w p _

/-- C5 witness: a `Fault` and a non-`Fault` outcome under rate 0 and
`fault_only`, against a concrete bus and world. -/
theorem fault_only_forced_export_witness :
    (∀ oX : Outcome Nat String,
      shouldForceExport oX "fault_only" = oX.is_fault) ∧
    exportDecision envFaultOnly bus0 (.Fault "boom" : Outcome Nat String)
      = true ∧
    exportDecision envFaultOnly bus0 (.Next 0 : Outcome Nat String)
      = false ∧
    (maybeExportTimeline envFaultOnly bus0 (.Next 0 : Outcome Nat String)
      w0).stats.skipped = u64succ w0.stats.skipped ∧
    (maybeExportTimeline envFaultOnly bus0 (.Next 0 : Outcome Nat String)
      w0).stats.exported = w0.stats.exported ∧
    (maybeExportTimeline envFaultOnly bus0 (.Next 0 : Outcome Nat String)
      w0).files = w0.files ∧
    (maybeExportTimeline envFaultOnly bus0 (.Fault "boom" : Outcome Nat String)
      w0).stats.exported = u64succ w0.stats.exported ∧
    (maybeExportTimeline envFaultOnly bus0 (.Fault "boom" : Outcome Nat String)
      w0).stats.skipped = w0.stats.skipped ∧
    (maybeExportTimeline envFaultOnly bus0 (.Fault "boom" : Outcome Nat String)
      w0).getFile "tl.json" =
      some (.timelineFile (((bus0.timeline).getD Timeline.new).sort)) :=
  fault_only_forced_export envFaultOnly bus0
    (.Fault "boom" : Outcome Nat String) (.Next 0 : Outcome Nat String)
    w0 "tl.json" rfl (by decide) (by decide) (by decide) rfl rfl rfl rfl rfl

/-- C6: appending a sorted Timeline to an existing, parseable destination
file leaves the file holding the events of both timelines merged and sorted
by timestamp, truncated to at most the configured max_events by dropping
the oldest; when the existing file is absent or unparseable, only the
current (sorted, truncated) Timeline is written. -/
theorem append_mode_merge_write (env : Env) (wEx wAbs wBad : World)
    (path : String) (current existing : Timeline) (raw : String)
    (hsorted : isSortedByTs current.events = true)
    (hwEx : wEx.writeFails path = false)
    (hEx : wEx.getFile path = some (.timelineFile existing))
    (hwAbs : wAbs.writeFails path = false)
    (hAbs : wAbs.getFile path = none)
    (hwBad : wBad.writeFails path = false)
    (hBad : wBad.getFile path = some (.unparseable raw)) :
    ((writeTimelineWithPolicy env wEx path "append" current).2 = none) ∧
    ((writeTimelineWithPolicy env wEx path "append" current).1.getFile path =
      some (.timelineFile
        (truncOpt env (Timeline.sort ⟨existing.events ++ current.events⟩)))) ∧
    ((Timeline.sort ⟨existing.events ++ current.events⟩).events.Perm
      (existing.events ++ current.events)) ∧
    (isSortedByTs (truncOpt env
      (Timeline.sort ⟨existing.events ++ current.events⟩)).events = true) ∧
    (∀ m, maxEventsLimit env = some m →
      (truncOpt env
        (Timeline.sort ⟨existing.events ++ current.events⟩)).events.length
        ≤ m) ∧
    (∀ q, ¬ q = path →
      (writeTimelineWithPolicy env wEx path "append" current).1.getFile q =
        wEx.getFile q) ∧
    ((writeTimelineWithPolicy env wAbs path "append" current).2 = none) ∧
    ((writeTimelineWithPolicy env wAbs path "append" current).1.getFile path =
      some (.timelineFile (truncOpt env current))) ∧
    ((writeTimelineWithPolicy env wBad path "append" current).2 = none) ∧
    ((writeTimelineWithPolicy env wBad path "append" current).1.getFile path =
      some (.timelineFile (truncOpt env current))) ∧
    (isSortedByTs (truncOpt env current).events = true) := by
  have hEq : writeTimelineWithPolicy env wEx path "append" current =
      (wEx.setFile path (.timelineFile
        (truncOpt env (Timeline.sort ⟨existing.events ++ current.events⟩))),
       none) := by
    unfold writeTimelineWithPolicy
    rw [if_pos rfl, hEx]
    simp [writeTimelineJson, hwEx]
  have hAbsEq : writeTimelineWithPolicy env wAbs path "append" current =
      (wAbs.setFile path (.timelineFile (truncOpt env current)), none) := by
    unfold writeTimelineWithPolicy
    rw [if_pos rfl, hAbs]
    simp [writeTimelineJson, hwAbs]
  have hBadEq : writeTimelineWithPolicy env wBad path "append" current =
      (wBad.setFile path (.timelineFile (truncOpt env current)), none) := by
    unfold writeTimelineWithPolicy
    rw [if_pos rfl, hBad]
    simp [writeTimelineJson, hwBad]
  have hsortmerged : isSortedByTs
      (Timeline.sort ⟨existing.events ++ current.events⟩).events = true :=
    sortEvents_sorted (existing.events ++ current.events)
  refine ⟨?_, ?_, ?_, ?_, ?_, ?_, ?_, ?_, ?_, ?_, ?_⟩
  · rw [hEq]
  · rw [hEq]
    exact getFile_setFile_self wEx path _
  · exact sortEvents_perm (existing.events ++ current.events)
  · exact truncOpt_sorted env _ hsortmerged
  · intro m hm
    exact truncOpt_len_le env _ m hm
  · intro q hq
    rw [hEq]
    exact getFile_setFile_ne wEx path q _ hq
  · rw [hAbsEq]
  · rw [hAbsEq]
    exact getFile_setFile_self wAbs path _
  · rw [hBadEq]
  · rw [hBadEq]
    exact getFile_setFile_self wBad path _
  · exact truncOpt_sorted env current hsorted

/-- C6 witness: one event in the existing file merged with one appended
event, plus the absent-file and unparseable-file fallbacks. -/
theorem append_mode_merge_write_witness :
    ((writeTimelineWithPolicy {} wAppend "tl.json" "append" ⟨[evB]⟩).2
      = none) ∧
    ((writeTimelineWithPolicy {} wAppend "tl.json" "append"
        ⟨[evB]⟩).1.getFile "tl.json" =
      some (.timelineFile
        (truncOpt {} (Timeline.sort ⟨(⟨[evA]⟩ : Timeline).events ++
          (⟨[evB]⟩ : Timeline).events⟩)))) ∧
    ((Timeline.sort ⟨(⟨[evA]⟩ : Timeline).events ++
        (⟨[evB]⟩ : Timeline).events⟩).events.Perm
      ((⟨[evA]⟩ : Timeline).events ++ (⟨[evB]⟩ : Timeline).events)) ∧
    (isSortedByTs (truncOpt {} (Timeline.sort ⟨(⟨[evA]⟩ : Timeline).events ++
      (⟨[evB]⟩ : Timeline).events⟩)).events = true) ∧
    (∀ m, maxEventsLimit {} = some m →
      (truncOpt {} (Timeline.sort ⟨(⟨[evA]⟩ : Timeline).events ++
        (⟨[evB]⟩ : Timeline).events⟩)).events.length ≤ m) ∧
    (∀ q, ¬ q = "tl.json" →
      (writeTimelineWithPolicy {} wAppend "tl.json" "append"
        ⟨[evB]⟩).1.getFile q = wAppend.getFile q) ∧
    ((writeTimelineWithPolicy {} w0 "tl.json" "append" ⟨[evB]⟩).2 = none) ∧
    ((writeTimelineWithPolicy {} w0 "tl.json" "append"
        ⟨[evB]⟩).1.getFile "tl.json" =
      some (.timelineFile (truncOpt {} ⟨[evB]⟩))) ∧
    ((writeTimelineWithPolicy {} wBadFile "tl.json" "append" ⟨[evB]⟩).2
      = none) ∧
    ((writeTimelineWithPolicy {} wBadFile "tl.json" "append"
        ⟨[evB]⟩).1.getFile "tl.json" =
      some (.timelineFile (truncOpt {} ⟨[evB]⟩))) ∧
    (isSortedByTs (truncOpt {} (⟨[evB]⟩ : Timeline)).events = true) :=
  append_mode_merge_write {} wAppend w0 wBadFile "tl.json" ⟨[evB]⟩ ⟨[evA]⟩
    "junk" rfl rfl (by decide) rfl rfl rfl (by decide)

/-- C10: every recorded decision increments `total_decisions` by one and
exactly one of `exported`/`skipped`; the invariant
`total_decisions == exported + skipped` (in u64 arithmetic) is preserved;
and a decision whose timeline write fails is counted as skipped, not
exported. -/
theorem sampling_stats_counters {Out E : Type} (env : Env) (w : World)
    (exported sampled forced : Bool) (mode policy : String)
    (o : Outcome Out E) (bus : Bus) (p : String)
    (hinv : w.stats.total_decisions =
      (w.stats.exported + w.stats.skipped) % U64LIM)
    (hpath : env.timelineOutput = some p) (hne : trimIsEmpty p = false)
    (hdec : exportDecision env bus o = true)
    (hwf : ∀ q, w.writeFails q = true) :
    ((recordSamplingStats env w exported sampled forced mode
        policy).stats.total_decisions = u64succ w.stats.total_decisions) ∧
    ((recordSamplingStats env w exported sampled forced mode
        policy).stats.exported =
      if exported then u64succ w.stats.exported else w.stats.exported) ∧
    ((recordSamplingStats env w exported sampled forced mode
        policy).stats.skipped =
      if exported then w.stats.skipped else u64succ w.stats.skipped) ∧
    ((recordSamplingStats env w exported sampled forced mode
        policy).stats.total_decisions =
      ((recordSamplingStats env w exported sampled forced mode
          policy).stats.exported +
        (recordSamplingStats env w exported sampled forced mode
          policy).stats.skipped) % U64LIM) ∧
    ((maybeExportTimeline env bus o w).stats.skipped
        = u64succ w.stats.skipped ∧
      (maybeExportTimeline env bus o w).stats.exported
        = w.stats.exported) := by
  have hrec := recordSamplingStats_stats_eq env w exported sampled forced
    mode policy
  refine ⟨?_, ?_, ?_, ?_, ?_⟩
  · simp [hrec]
  · simp [hrec]
  · simp [hrec]
  · simp only [U64LIM] at hinv
    simp [hrec]
    cases exported <;> simp [u64succ, U64LIM] <;> omega
  · have herr := writeTimelineWithPolicy_fails_err env w p
      (asciiLower ((env.timelineMode).getD "overwrite"))
      (((bus.timeline).getD Timeline.new).sort) hwf
    rcases hwp : writeTimelineWithPolicy env w p
        (asciiLower ((env.timelineMode).getD "overwrite"))
        (((bus.timeline).getD Timeline.new).sort) with ⟨w1, err⟩
    rw [hwp] at herr
    cases err with
    | none => simp at herr
    | some e =>
      have hst : w1.stats = w.stats := by
        have hh := stats_writeTimelineWithPolicy env w p
          (asciiLower ((env.timelineMode).getD "overwrite"))
          (((bus.timeline).getD Timeline.new).sort)
        rw [hwp] at hh
        exact hh
      rw [maybeExport_eq_export_err env bus o w p w1 e hpath hne hdec hwp,
        recordSamplingStats_stats_eq]
      simp [hst]

/-- C10 witness: a concrete decision recording, and a forced-export decision
whose write fails in an all-writes-fail world. -/
theorem sampling_stats_counters_witness :
    ((recordSamplingStats envPath wFail true true false "overwrite"
        "fault_branch").stats.total_decisions
      = u64succ wFail.stats.total_decisions) ∧
    ((recordSamplingStats envPath wFail true true false "overwrite"
        "fault_branch").stats.exported =
      if true then u64succ wFail.stats.exported else wFail.stats.exported) ∧
    ((recordSamplingStats envPath wFail true true false "overwrite"
        "fault_branch").stats.skipped =
      if true then wFail.stats.skipped else u64succ wFail.stats.skipped) ∧
    ((recordSamplingStats envPath wFail true true false "overwrite"
        "fault_branch").stats.total_decisions =
      ((recordSamplingStats envPath wFail true true false "overwrite"
          "fault_branch").stats.exported +
        (recordSamplingStats envPath wFail true true false "overwrite"
          "fault_branch").stats.skipped) % U64LIM) ∧
    ((maybeExportTimeline envPath bus0 (.Fault "boom" : Outcome Nat String)
        wFail).stats.skipped = u64succ wFail.stats.skipped ∧
      (maybeExportTimeline envPath bus0 (.Fault "boom" : Outcome Nat String)
        wFail).stats.exported = wFail.stats.exported) :=
  sampling_stats_counters envPath wFail true true false "overwrite"
    "fault_branch" (.Fault "boom" : Outcome Nat String) bus0 "tl.json"
    (by decide) rfl (by decide) (by decide) (fun q => rfl)

/-- C7: `into_result` yields `Ok` exactly on `Next` (carrying its value) and
an error on every other variant: `Fault(e)` maps to `Err(e)` and `Branch`,
`Jump`, `Emit` each map to an early-termination error; the conversion
succeeds iff `is_next` holds. -/
theorem into_result_next_iff {T E : Type} (fromAnyhow : String → E) :
    (∀ o : Outcome T E, (o.into_result fromAnyhow).isOk = o.is_next) ∧
    (∀ t : T, (Outcome.Next t : Outcome T E).into_result fromAnyhow
        = .ok t) ∧
    (∀ e : E, (Outcome.Fault e : Outcome T E).into_result fromAnyhow
        = .error e) ∧
    (∀ id payload, (Outcome.Branch id payload : Outcome T E).into_result
        fromAnyhow = .error (fromAnyhow "Early termination: Branch")) ∧
    (∀ id payload, (Outcome.Jump id payload : Outcome T E).into_result
        fromAnyhow = .error (fromAnyhow "Early termination: Jump")) ∧
    (∀ evt payload, (Outcome.Emit evt payload : Outcome T E).into_result
        fromAnyhow = .error (fromAnyhow "Early termination: Emit")) ∧
    (∀ (o : Outcome T E) (t : T),
      o.into_result fromAnyhow = .ok t ↔ o = .Next t) := by
  refine ⟨?_, fun t => rfl, fun e => rfl, fun id payload => rfl,
    fun id payload => rfl, fun evt payload => rfl, ?_⟩
  · intro o
    cases o <;>
      simp [Outcome.into_result, Outcome.is_next, Except.isOk, Except.toBool]
  · intro o t
    cases o <;> simp [Outcome.into_result]

end Ranvier
